import Mathlib

/-!
Verification of the kobo-dashboard calendar service against its design
specification.  The Python sources `calendar_processor.py` and
`parse_calendar.py` are shallowly embedded below: wall-clock times are
minutes since 1970-01-01T00:00, calendar dates are day numbers since
1970-01-01, and timezones are pairs of offset functions (offset in minutes
east of UTC, one resolving a UTC instant and one resolving a local wall
time, the latter matching the interpretation used by `datetime.astimezone`
on zone-naive values and by `pytz.localize` away from transition hours).
-/

/-- Day number since 1970-01-01 of a Gregorian calendar date (the standard
civil-from-days inversion, here days-from-civil).  Uses Euclidean division,
which on nonnegative inputs agrees with floor division. -/
def daysFromCivil (y m d : Int) : Int :=
  let yAdj : Int := y - (if m ≤ 2 then 1 else 0)
  let era : Int := yAdj / 400
  let yoe : Int := yAdj - era * 400
  let mp : Int := if m > 2 then m - 3 else m + 9
  let doy : Int := (153 * mp + 2) / 5 + d - 1
  let doe : Int := yoe * 365 + yoe / 4 - yoe / 100 + doy
  era * 146097 + doe - 719468

/-- Gregorian calendar date (year, month, day) of a day number since
1970-01-01. -/
def civilFromDays (z0 : Int) : Int × Int × Int :=
  let z : Int := z0 + 719468
  let era : Int := z / 146097
  let doe : Int := z - era * 146097
  let yoe : Int := (doe - doe / 1460 + doe / 36524 - doe / 146096) / 365
  let y : Int := yoe + era * 400
  let doy : Int := doe - (365 * yoe + yoe / 4 - yoe / 100)
  let mp : Int := (5 * doy + 2) / 153
  let d : Int := doy - (153 * mp + 2) / 5 + 1
  let m : Int := mp + (if mp < 10 then 3 else -9)
  (y + (if m ≤ 2 then 1 else 0), m, d)

/-- Minutes since 1970-01-01T00:00 of a wall-clock datetime given by
calendar date plus hour and minute. -/
def minutesOfYmdhm (y m d h mi : Int) : Int :=
  1440 * daysFromCivil y m d + 60 * h + mi

/-- Calendar day number holding a given minute-since-epoch wall time
(the embedding of `datetime.date()`). -/
def dateOfMinutes (w : Int) : Int :=
  w / 1440

example : daysFromCivil 1970 1 1 = 0 := by decide
example : daysFromCivil 2024 6 16 = 19890 := by decide
example : civilFromDays 19890 = (2024, 6, 16) := by decide
example : dateOfMinutes (minutesOfYmdhm 2024 6 15 23 30) = daysFromCivil 2024 6 15 := by decide
example : (-3 : Int) / 2 = -2 := by decide

/-- Zero-padded two-digit decimal rendering of a natural number below 100. -/
def pad2 (n : Nat) : String :=
  if n < 10 then "0" ++ toString n else toString n

/-- Zero-padded four-digit decimal rendering of a natural number below
10000. -/
def pad4 (n : Nat) : String :=
  if n < 10 then "000" ++ toString n
  else if n < 100 then "00" ++ toString n
  else if n < 1000 then "0" ++ toString n
  else toString n

/-- Rendering of a UTC offset in minutes in the +HH:MM form used by
`datetime.isoformat` (a zero offset prints as +00:00, never as Z). -/
def offsetStr (off : Int) : String :=
  (if off < 0 then "-" else "+") ++ pad2 (off.natAbs / 60) ++ ":" ++ pad2 (off.natAbs % 60)

/-- The YYYY-MM-DD rendering of a day number, the embedding of
`date.isoformat()`. -/
def isoOfDate (day : Int) : String :=
  let c := civilFromDays day
  pad4 c.1.toNat ++ "-" ++ pad2 c.2.1.toNat ++ "-" ++ pad2 c.2.2.toNat

/-- The ISO-8601 rendering of an aware datetime with wall time `w` (minutes
since epoch) and UTC offset `off` (minutes), the embedding of
`datetime.isoformat()` at second precision. -/
def isoOfWallOff (w off : Int) : String :=
  let mod := (w % 1440).toNat
  isoOfDate (w / 1440) ++ "T" ++ pad2 (mod / 60) ++ ":" ++ pad2 (mod % 60) ++ ":00" ++ offsetStr off

example : isoOfWallOff (minutesOfYmdhm 2024 6 16 0 30) 60 = "2024-06-16T00:30:00+01:00" := by decide
example : isoOfDate (daysFromCivil 2024 6 16) = "2024-06-16" := by decide

/-- A timezone, as the pair of offset functions the embedded code needs:
`offAtUtc` resolves the offset (minutes east of UTC) at a UTC instant, as
used by `datetime.astimezone` on aware values; `offAtLocal` resolves the
offset chosen when a local wall time is interpreted in the zone, as used by
`datetime.astimezone` on naive values (which CPython presumes to be system
local time) and by `pytz.localize` at times away from transition hours. -/
structure Zone where
  offAtUtc : Int → Int
  offAtLocal : Int → Int

/-- The UTC timezone: both offset functions are constantly zero. -/
def utcZone : Zone := ⟨fun _ => 0, fun _ => 0⟩

/-- Europe/London during 2024 per tzdata: BST (UTC+1) between
2024-03-31T01:00Z and 2024-10-27T01:00Z, GMT (UTC+0) otherwise; local wall
times are interpreted as BST between local 2024-03-31T02:00 and local
2024-10-27T02:00 (the fold-zero interpretation of the spring gap and the
autumn ambiguity). -/
def london2024 : Zone :=
  ⟨fun i => if minutesOfYmdhm 2024 3 31 1 0 ≤ i ∧ i < minutesOfYmdhm 2024 10 27 1 0 then 60 else 0,
   fun w => if minutesOfYmdhm 2024 3 31 2 0 ≤ w ∧ w < minutesOfYmdhm 2024 10 27 2 0 then 60 else 0⟩

/-- A Python datetime value: either zone-aware (wall time in its own zone
together with its fixed UTC offset in minutes, as carried by the tzinfo of
parsed iCal values) or zone-naive (wall time only). -/
inductive PyDateTime where
  | aware (wall : Int) (off : Int)
  | naive (wall : Int)
deriving DecidableEq

/-- A raw start or end value extracted from a component property: a plain
calendar date (iCal DATE) or a datetime (iCal DATE-TIME). -/
inductive RawDateValue where
  | dateOnly (day : Int)
  | dt (x : PyDateTime)
deriving DecidableEq

/-- Embedding of `hasattr(value, "astimezone")`: true for every datetime,
naive or aware, since `astimezone` is a method of the datetime class; false
for a plain date. -/
def hasattrAstimezone : RawDateValue → Bool
  | .dateOnly _ => false
  | .dt _ => true

/-- Embedding of `hasattr(value, "date")`: true for every datetime (the
`date()` method), false for a plain date object, which has no such
attribute. -/
def hasattrDate : RawDateValue → Bool
  | .dateOnly _ => false
  | .dt _ => true

/-- Embedding of `x.astimezone(tz)` on a datetime, returning the target
wall time and the target offset.  An aware value converts by its own
offset; a naive value is presumed by CPython to be system local time, so it
is converted using the system zone offset for that wall time. -/
def astimezone (sys tz : Zone) : PyDateTime → Int × Int
  | .aware w off =>
    let i := w - off
    (i + tz.offAtUtc i, tz.offAtUtc i)
  | .naive w =>
    let i := w - sys.offAtLocal w
    (i + tz.offAtUtc i, tz.offAtUtc i)

/-- Embedding of `dt + timedelta(minutes=n)`: wall-clock addition keeping
the tzinfo (hence the offset) unchanged. -/
def addMinutes (n : Int) : PyDateTime → PyDateTime
  | .aware w off => .aware (w + n) off
  | .naive w => .naive (w + n)

/-- Embedding of `CalendarProcessor._get_event_date` (calendar_processor.py
lines 158-173).  Both `hasattr(dt, "date")` and `hasattr(dt, "astimezone")`
hold for every datetime, naive or aware, so the astimezone branch is always
taken for datetimes and the source else-branch commented "Naive datetime,
assume UTC" (lines 166-170) is unreachable; a plain date is returned as
is. -/
def getEventDate (sys tz : Zone) (v : RawDateValue) : Int :=
  match v with
  | .dt x => dateOfMinutes (astimezone sys tz x).1
  | .dateOnly d => d

/-- Embedding of the unreachable else-branch of `_get_event_date`
(calendar_processor.py lines 166-170): replace the tzinfo of the naive
value with UTC, convert to the target zone, and take the date. -/
def getEventDateNaiveUtcBranch (tz : Zone) (w : Int) : Int :=
  dateOfMinutes (w + tz.offAtUtc w)

/-- Modelled from the spec: rule 3 of the TimeNormalizer contract, for the
ISO value of a zone-naive datetime — treat the naive value as UTC, convert
to the target zone, and render with the target offset at that instant
(calendar_processor.py has no reachable code for this rule, so the required
value is modelled from the specification words). -/
def specNaiveToTargetIso (tz : Zone) (w : Int) : String :=
  isoOfWallOff (w + tz.offAtUtc w) (tz.offAtUtc w)

/-- Embedding of `CalendarProcessor._format_datetime` (calendar_processor.py
lines 175-184): a datetime (aware or naive, both having `astimezone`) is
converted to the configured zone and rendered; a plain date is combined
with midnight, localized by pytz into the configured zone, and rendered. -/
def formatDatetime (sys tz : Zone) (v : RawDateValue) : String :=
  match v with
  | .dt x =>
    let p := astimezone sys tz x
    isoOfWallOff p.1 p.2
  | .dateOnly d =>
    isoOfWallOff (1440 * d) (tz.offAtLocal (1440 * d))

/-- The properties of one parsed VEVENT component that the normalizer
reads: start, end, summary, description, location, each optional. -/
structure EventRec where
  dtstart : Option RawDateValue
  dtend : Option RawDateValue
  summary : Option String
  description : Option String
  loc : Option String
deriving DecidableEq

/-- A parsed component as seen by `_process_event`: either its properties
read cleanly, or reading them raises (the malformed case caught by the
per-event try/except at calendar_processor.py lines 154-156). -/
inductive VComponent where
  | good (r : EventRec)
  | malformed
deriving DecidableEq

/-- A component of the parsed calendar tree together with its name;
`_parse_calendar_events` keeps only components named VEVENT. -/
structure NamedComponent where
  cname : String
  comp : VComponent
deriving DecidableEq

/-- The canonical output record (the JSON element shape): `startIso` and
`endIso` are the `start.dateTime` and `end.dateTime` strings. -/
structure CanonicalEvent where
  summary : String
  startIso : String
  endIso : String
  description : String
  loc : String
  calendarSource : String
deriving DecidableEq

/-- The start-property accessor of a component; the malformed case has no
readable properties. -/
def dtstartOf : VComponent → Option RawDateValue
  | .good r => r.dtstart
  | .malformed => none

/-- Embedding of `CalendarProcessor._process_event` (calendar_processor.py
lines 108-156): reject when there is no dtstart or when the comparison date
differs from the target date; otherwise build the canonical record,
synthesizing a 30-minute end for datetime starts lacking dtend and copying
the start string for date-only starts lacking dtend.  The malformed case is
the per-event except-branch returning None. -/
def processEvent (sys tz : Zone) (c : VComponent) (targetDate : Int) (calName : String) :
    Option CanonicalEvent :=
  match c with
  | .malformed => none
  | .good r =>
    match r.dtstart with
    | none => none
    | some ds =>
      if getEventDate sys tz ds ≠ targetDate then none
      else
        let startIso := formatDatetime sys tz ds
        let endIso :=
          match r.dtend with
          | some de => formatDatetime sys tz de
          | none =>
            match ds with
            | .dt x => formatDatetime sys tz (.dt (addMinutes 30 x))
            | .dateOnly _ => startIso
        some
          { summary := r.summary.getD "Untitled Event"
            startIso := startIso
            endIso := endIso
            description := r.description.getD ""
            loc := r.loc.getD ""
            calendarSource := calName }

/-- One configured feed: display name and fetch URL
(calendar_processor.py builds these in `_load_calendar_config`). -/
structure FeedDescriptor where
  name : String
  url : String
deriving DecidableEq

/-- The external iCal wire-format parser (`Calendar.from_ical` plus the
component walk), treated as a collaborator: it maps the fetched bytes to a
parse error or the flattened list of named components. -/
abbrev ParseFn : Type := String → Except Unit (List NamedComponent)

/-- The VEVENT filter and per-component normalization loop of
`_parse_calendar_events` (calendar_processor.py lines 88-93): every
component named VEVENT is passed to `_process_event` and the non-None
results are collected in order. -/
def componentEvents (sys tz : Zone) (today : Int) (calName : String)
    (comps : List NamedComponent) : List CanonicalEvent :=
  (comps.filter (fun nc => nc.cname == "VEVENT")).filterMap
    (fun nc => processEvent sys tz nc.comp today calName)

/-- Embedding of `CalendarProcessor._parse_calendar_events`
(calendar_processor.py lines 75-106): parse the fetched bytes and process
every VEVENT; a parse failure is caught and yields the empty list. -/
def parseCalendarEvents (parse : ParseFn) (sys tz : Zone) (today : Int)
    (calName : String) (icalData : String) : List CanonicalEvent :=
  match parse icalData with
  | .error _ => []
  | .ok comps => componentEvents sys tz today calName comps

/-- One iteration of the feed loop in `process_calendars`
(calendar_processor.py lines 192-204): `_fetch_ical_data` returning None
(fetch error) or falsy data (empty bytes) skips the feed via
`if not ical_data: continue`; otherwise the data is parsed and
processed. -/
def feedEvents (parse : ParseFn) (sys tz : Zone) (today : Int)
    (fetch : String → Option String) (cal : FeedDescriptor) : List CanonicalEvent :=
  match fetch cal.url with
  | none => []
  | some data => if data = "" then [] else parseCalendarEvents parse sys tz today cal.name data

/-- Whether the feed loop iteration records an error log line for a feed:
`_fetch_ical_data` logs on fetch failure and `_parse_calendar_events` logs
on parse failure (an empty successful response is skipped without an error
line). -/
def feedErrorLogged (parse : ParseFn) (fetch : String → Option String)
    (cal : FeedDescriptor) : Bool :=
  match fetch cal.url with
  | none => true
  | some data =>
    if data = "" then false
    else match parse data with
      | .error _ => true
      | .ok _ => false

/-- The `all_events` accumulator of `process_calendars` before sorting:
per-feed results concatenated in feed-configuration order
(calendar_processor.py lines 190-201). -/
def allEvents (parse : ParseFn) (sys tz : Zone) (today : Int)
    (fetch : String → Option String) : List FeedDescriptor → List CanonicalEvent
  | [] => []
  | cal :: rest =>
    feedEvents parse sys tz today fetch cal ++ allEvents parse sys tz today fetch rest

/-- The sort key of `all_events.sort(key=lambda x: x["start"]["dateTime"])`. -/
def startKey (e : CanonicalEvent) : String := e.startIso

/-- Lexicographic comparison of code-point sequences, the order by which
Python compares strings. -/
def charListLe : List Char → List Char → Bool
  | [], _ => true
  | _ :: _, [] => false
  | a :: as, b :: bs =>
    if a.toNat < b.toNat then true
    else if b.toNat < a.toNat then false
    else charListLe as bs

/-- The lexical string order used by the sort key comparison. -/
def pyStrLe (a b : String) : Bool := charListLe a.data b.data

/-- The sort relation of the merge step: comparison of the start strings
under the lexical string order. -/
def startLe (a b : CanonicalEvent) : Prop := pyStrLe (startKey a) (startKey b) = true

instance : DecidableRel startLe :=
  fun a b => inferInstanceAs (Decidable (pyStrLe (startKey a) (startKey b) = true))

/-- Embedding of the Python list sort: a stable ascending sort by the
start string under the lexical string order (CPython list.sort is
documented stable; a stable sort by a total preorder is unique, and
insertion sort realizes it). -/
def pySortByStart (l : List CanonicalEvent) : List CanonicalEvent :=
  List.insertionSort startLe l

/-- The sorted event batch produced by one pass of `process_calendars`
(calendar_processor.py lines 190-207). -/
def sortedEvents (parse : ParseFn) (sys tz : Zone) (today : Int)
    (fetch : String → Option String) (cfg : List FeedDescriptor) : List CanonicalEvent :=
  pySortByStart (allEvents parse sys tz today fetch cfg)

/-- JSON string escaping as performed by `json.dump` for the characters
that can occur in the embedded records. -/
def jsonEscapeChar (c : Char) : String :=
  if c = '"' then "\\\""
  else if c = '\\' then "\\\\"
  else if c = '\n' then "\\n"
  else if c = '\t' then "\\t"
  else if c = '\r' then "\\r"
  else String.singleton c

/-- JSON escaping of a whole string. -/
def jsonEscape (s : String) : String :=
  String.join (s.toList.map jsonEscapeChar)

/-- One element of the output array in the `json.dump(indent=2)` layout,
with the exact field names and nesting the dashboard consumes. -/
def renderEvent (e : CanonicalEvent) : String :=
  "  \x7b\n    \"summary\": \"" ++ jsonEscape e.summary ++ "\",\n    \"start\": \x7b\n      \"dateTime\": \""
    ++ jsonEscape e.startIso ++ "\"\n    \x7d,\n    \"end\": \x7b\n      \"dateTime\": \""
    ++ jsonEscape e.endIso ++ "\"\n    \x7d,\n    \"description\": \"" ++ jsonEscape e.description
    ++ "\",\n    \"location\": \"" ++ jsonEscape e.loc ++ "\",\n    \"calendarSource\": \""
    ++ jsonEscape e.calendarSource ++ "\"\n  \x7d"

/-- The serialized output document: a top-level JSON array in the
`json.dump(all_events, indent=2)` layout. -/
def renderJson (events : List CanonicalEvent) : String :=
  match events with
  | [] => "[]"
  | _ => "[\n" ++ String.intercalate ",\n" (events.map renderEvent) ++ "\n]"

/-- The bytes one pass of `process_calendars` writes to the output file:
the fetched feeds processed, merged, sorted and serialized. -/
def outputJson (parse : ParseFn) (sys tz : Zone) (today : Int)
    (fetch : String → Option String) (cfg : List FeedDescriptor) : String :=
  renderJson (sortedEvents parse sys tz today fetch cfg)

/-- Helper of the comma split: accumulate the current piece (reversed) and
cut at every comma, keeping empty pieces. -/
def splitCommaAux : List Char → List Char → List String
  | [], acc => [String.mk acc.reverse]
  | c :: cs, acc =>
    if c = ',' then String.mk acc.reverse :: splitCommaAux cs []
    else splitCommaAux cs (c :: acc)

/-- Embedding of the Python `split(",")`: cut at every comma, keeping
empty pieces; the empty string yields the singleton list of the empty
string, never the empty list. -/
def pySplitComma (s : String) : List String := splitCommaAux s.data []

/-- Whitespace as removed by the Python `strip()` on the characters that
occur in this configuration format. -/
def isPySpace (c : Char) : Bool :=
  c = ' ' || c = '\t' || c = '\n' || c = '\r'

/-- Embedding of the Python `strip()`: drop leading and trailing
whitespace. -/
def pyStrip (s : String) : String :=
  String.mk ((s.data.dropWhile isPySpace).reverse.dropWhile isPySpace).reverse

/-- Embedding of `CalendarProcessor._load_calendar_config`
(calendar_processor.py lines 41-63): split both environment strings on
commas, return no feeds when the list lengths differ, and otherwise keep
one descriptor per URL entry that is non-empty after stripping, paired by
position with the stripped name.  The guard `if not ical_urls or not
calendar_names` is kept although `split` never returns an empty list. -/
def loadCalendarConfig (icalUrlsEnv calendarNamesEnv : String) : List FeedDescriptor :=
  let icalUrls := pySplitComma icalUrlsEnv
  let calendarNames := pySplitComma calendarNamesEnv
  if icalUrls = [] ∨ calendarNames = [] then []
  else if icalUrls.length ≠ calendarNames.length then []
  else
    icalUrls.enum.filterMap (fun p =>
      if pyStrip p.2 ≠ "" ∧ p.1 < calendarNames.length then
        some ⟨pyStrip (calendarNames.getD p.1 ""), pyStrip p.2⟩
      else none)

/-- Whether `_load_calendar_config` logs a configuration error line
(calendar_processor.py lines 46-52). -/
def loadConfigLogsError (icalUrlsEnv calendarNamesEnv : String) : Bool :=
  let icalUrls := pySplitComma icalUrlsEnv
  let calendarNames := pySplitComma calendarNamesEnv
  decide (icalUrls = [] ∨ calendarNames = []) ||
    decide (icalUrls.length ≠ calendarNames.length)

/-- Injected outcome of the persistence step of one pass: success, a
failure while opening the output file, or a failure after `json.dump` has
already written `k` characters of the new content. -/
inductive WriteOutcome where
  | ok
  | failOpen
  | failDuring (k : Nat)
deriving DecidableEq

/-- Embedding of the persistence step of `process_calendars`
(calendar_processor.py lines 209-226): the file state after the pass, as a
function of the previous state, the serialized content, and the injected
outcome.  `open(path, "w")` truncates the file on success before
`json.dump` streams into it, so a failure during the dump leaves the file
holding a proper prefix of the new content; a failure at open time leaves
the previous state.  The surrounding try/except returns in every case
(logging instead of raising). -/
def persistPass (prev : Option String) (content : String) (o : WriteOutcome) :
    Option String :=
  match o with
  | .ok => some content
  | .failOpen => prev
  | .failDuring k => some (content.take k)

/-- Whether the persistence step logs an error line (the except branch at
calendar_processor.py lines 225-226). -/
def persistLogsError (o : WriteOutcome) : Bool :=
  match o with
  | .ok => false
  | .failOpen => true
  | .failDuring _ => true

/-- Embedding of the start and end formatting of `parse_ical_url`
(parse_calendar.py lines 61-75): a datetime (aware or naive, both having
`astimezone`) is converted to the configured zone and rendered; a plain
date falls to the else-branch and is rendered by `date.isoformat()` as a
bare YYYY-MM-DD string with no time and no offset. -/
def pcIso (sys tz : Zone) (v : RawDateValue) : String :=
  match v with
  | .dt x =>
    let p := astimezone sys tz x
    isoOfWallOff p.1 p.2
  | .dateOnly d => isoOfDate d

/-- Embedding of the per-event body of `parse_ical_url`
(parse_calendar.py lines 39-91): skip without dtstart; the comparison date
of a datetime is the astimezone date (the earlier naive `date()` value is
overwritten, since every datetime has `astimezone`) and of a plain date the
date itself; on a match build the record, with the end equal to the start
string whenever dtend is absent — parse_calendar.py synthesizes no
30-minute duration. -/
def pcProcessEvent (sys tz : Zone) (today : Int) (calName : String)
    (r : EventRec) : Option CanonicalEvent :=
  match r.dtstart with
  | none => none
  | some ds =>
    let eventDate :=
      match ds with
      | .dt x => dateOfMinutes (astimezone sys tz x).1
      | .dateOnly d => d
    if eventDate = today then
      let startIso := pcIso sys tz ds
      let endIso :=
        match r.dtend with
        | some de => pcIso sys tz de
        | none => startIso
      some
        { summary := r.summary.getD "Untitled Event"
          startIso := startIso
          endIso := endIso
          description := r.description.getD ""
          loc := r.loc.getD ""
          calendarSource := calName }
    else none

theorem charListLe_refl : ∀ l : List Char, charListLe l l = true
  | [] => rfl
  | c :: cs => by simp [charListLe, charListLe_refl cs]

theorem charListLe_total : ∀ a b : List Char, charListLe a b = true ∨ charListLe b a = true
  | [], _ => Or.inl rfl
  | _ :: _, [] => Or.inr rfl
  | a :: as, b :: bs => by
    by_cases h1 : a.toNat < b.toNat
    · exact Or.inl (by simp [charListLe, h1])
    · by_cases h2 : b.toNat < a.toNat
      · exact Or.inr (by simp [charListLe, h2, h1])
      · rcases charListLe_total as bs with h | h
        · exact Or.inl (by simp [charListLe, h1, h2, h])
        · exact Or.inr (by simp [charListLe, h1, h2, h])

theorem charListLe_trans (a : List Char) : ∀ b c : List Char,
    charListLe a b = true → charListLe b c = true → charListLe a c = true := by
  induction a with
  | nil => intro b c h1 h2; rfl
  | cons x xs ih =>
    intro b c h1 h2
    cases b with
    | nil => simp [charListLe] at h1
    | cons y ys =>
      cases c with
      | nil => simp [charListLe] at h2
      | cons z zs =>
        simp only [charListLe] at h1 h2 ⊢
        by_cases hxy : x.toNat < y.toNat
        · by_cases hyz : y.toNat < z.toNat
          · simp [lt_trans hxy hyz]
          · by_cases hzy : z.toNat < y.toNat
            · simp [hyz, hzy] at h2
            · have hxz : x.toNat < z.toNat := by omega
              simp [hxz]
        · by_cases hyx : y.toNat < x.toNat
          · simp [hxy, hyx] at h1
          · by_cases hyz : y.toNat < z.toNat
            · have hxz : x.toNat < z.toNat := by omega
              simp [hxz]
            · by_cases hzy : z.toNat < y.toNat
              · simp [hyz, hzy] at h2
              · have hxz : ¬ x.toNat < z.toNat := by omega
                have hzx : ¬ z.toNat < x.toNat := by omega
                simp only [if_neg hxy, if_neg hyx] at h1
                simp only [if_neg hyz, if_neg hzy] at h2
                simp only [if_neg hxz, if_neg hzx]
                exact ih ys zs h1 h2

instance : IsTotal CanonicalEvent startLe :=
  ⟨fun a b => charListLe_total (startKey a).data (startKey b).data⟩

instance : IsTrans CanonicalEvent startLe :=
  ⟨fun _ _ _ h h₂ => charListLe_trans _ _ _ h h₂⟩

theorem startLe_of_key_eq {x y : CanonicalEvent} (h : startKey x = startKey y) :
    startLe x y := by
  unfold startLe pyStrLe
  rw [h]
  exact charListLe_refl _

/-- Inserting an element into a list commutes with filtering on any fixed
value of the sort key: the inserted element lands before every element
carrying an equal key, so the key-class subsequence gains the new element
at its front exactly as consing it would. -/
theorem orderedInsert_filter_startKey (x : CanonicalEvent) (l : List CanonicalEvent)
    (s : String) :
    (List.orderedInsert startLe x l).filter (fun a => startKey a == s)
      = ((x :: l).filter (fun a => startKey a == s)) := by
  induction l with
  | nil => rfl
  | cons y ys ih =>
    by_cases h : startLe x y
    · simp [List.orderedInsert, h]
    · rw [List.orderedInsert, if_neg h]
      by_cases px : startKey x = s
      · by_cases py : startKey y = s
        · exact absurd (startLe_of_key_eq (px.trans py.symm)) h
        · have hx : (startKey x == s) = true := beq_iff_eq.mpr px
          have hy : (startKey y == s) = false := by simp [py]
          simp only [List.filter_cons, hx, hy] at ih ⊢
          simp [ih]
      · have hx : (startKey x == s) = false := by simp [px]
        simp only [List.filter_cons, hx] at ih ⊢
        simp [ih]

/-- The stable sort preserves, for every key value, the exact subsequence
of events carrying that key. -/
theorem pySortByStart_filter (l : List CanonicalEvent) (s : String) :
    (pySortByStart l).filter (fun a => startKey a == s)
      = l.filter (fun a => startKey a == s) := by
  induction l with
  | nil => rfl
  | cons x xs ih =>
    have ih' : (List.insertionSort startLe xs).filter (fun a => startKey a == s)
        = xs.filter (fun a => startKey a == s) := ih
    show (List.orderedInsert startLe x (List.insertionSort startLe xs)).filter _ = _
    rw [orderedInsert_filter_startKey]
    cases hx : (startKey x == s) <;> simp only [List.filter_cons, hx, ih']

theorem pySortByStart_sorted (l : List CanonicalEvent) :
    List.Sorted startLe (pySortByStart l) :=
  List.sorted_insertionSort startLe l

theorem pySortByStart_perm (l : List CanonicalEvent) :
    (pySortByStart l).Perm l :=
  List.perm_insertionSort startLe l

/-- C1: the code does not treat a zone-naive DateTime as UTC.  Because
naive datetimes also carry the `astimezone` method, the hasattr test sends
them down the aware branch, where CPython interprets them as system local
time; the else-branch commented "Naive datetime, assume UTC" is
unreachable.  With system and target zone Europe/London, the naive value
2024-06-15T23:30:00 yields comparison date 2024-06-15 and ISO start
2024-06-15T23:30:00+01:00, while the spec (and the unreachable branch)
require comparison date 2024-06-16 and ISO start 2024-06-16T00:30:00+01:00;
consequently the event is dropped on the target date the spec assigns
it. -/
theorem c1_naive_datetime_not_treated_as_utc :
    getEventDate london2024 london2024 (.dt (.naive (minutesOfYmdhm 2024 6 15 23 30)))
        = daysFromCivil 2024 6 15
  ∧ formatDatetime london2024 london2024 (.dt (.naive (minutesOfYmdhm 2024 6 15 23 30)))
        = "2024-06-15T23:30:00+01:00"
  ∧ getEventDateNaiveUtcBranch london2024 (minutesOfYmdhm 2024 6 15 23 30)
        = daysFromCivil 2024 6 16
  ∧ specNaiveToTargetIso london2024 (minutesOfYmdhm 2024 6 15 23 30)
        = "2024-06-16T00:30:00+01:00"
  ∧ daysFromCivil 2024 6 15 ≠ daysFromCivil 2024 6 16
  ∧ "2024-06-15T23:30:00+01:00" ≠ "2024-06-16T00:30:00+01:00"
  ∧ processEvent london2024 london2024
        (.good ⟨some (.dt (.naive (minutesOfYmdhm 2024 6 15 23 30))), none, none, none, none⟩)
        (daysFromCivil 2024 6 16) "Cal"
        = none := by
  refine ⟨by decide, by decide, by decide, by decide, by decide, by decide, by decide⟩

/-- C2: a component is normalized to a canonical event exactly when it has
a readable dtstart property whose comparison date under the TimeNormalizer
rules equals the target date; in particular a date-only start equal to the
target date is always included, independent of any time-of-day. -/
theorem c2_inclusion_iff_start_present_and_dated_today :
    (∀ (sys tz : Zone) (today : Int) (calName : String) (c : VComponent),
      (processEvent sys tz c today calName).isSome
        ↔ ∃ ds, dtstartOf c = some ds ∧ getEventDate sys tz ds = today)
  ∧ (∀ (sys tz : Zone) (today : Int) (calName : String)
      (de : Option RawDateValue) (su de2 lo : Option String),
      (processEvent sys tz (.good ⟨some (.dateOnly today), de, su, de2, lo⟩)
        today calName).isSome) := by
  constructor
  · intro sys tz today calName c
    cases c with
    | malformed => simp [processEvent, dtstartOf]
    | good r =>
      cases hds : r.dtstart with
      | none => simp [processEvent, dtstartOf, hds]
      | some ds =>
        by_cases h : getEventDate sys tz ds = today
        · simp [processEvent, dtstartOf, hds, h]
        · simp [processEvent, dtstartOf, hds, h]
  · intro sys tz today calName de su de2 lo
    simp [processEvent, getEventDate]

theorem allEvents_append (parse : ParseFn) (sys tz : Zone) (today : Int)
    (fetch : String → Option String) (l₁ l₂ : List FeedDescriptor) :
    allEvents parse sys tz today fetch (l₁ ++ l₂)
      = allEvents parse sys tz today fetch l₁ ++ allEvents parse sys tz today fetch l₂ := by
  induction l₁ with
  | nil => rfl
  | cons c cs ih => simp [allEvents, ih]

theorem feedEvents_congr (parse : ParseFn) (sys tz : Zone) (today : Int)
    (f g : String → Option String) (cal : FeedDescriptor)
    (h : f cal.url = g cal.url) :
    feedEvents parse sys tz today f cal = feedEvents parse sys tz today g cal := by
  unfold feedEvents
  rw [h]

/-- C3 counterexample: parse_calendar.py performs no 30-minute synthesis.
An included component with DateTime start 2024-06-16T09:00:00+01:00 and no
end-date property is emitted with end equal to the start string, not the
start plus 30 minutes the claim requires. -/
theorem c3_counterexample_no_duration_synthesis :
    pcProcessEvent utcZone london2024 (daysFromCivil 2024 6 16) "Work"
        ⟨some (.dt (.aware (minutesOfYmdhm 2024 6 16 9 0) 60)), none, some "Standup", none, none⟩
      = some ⟨"Standup", "2024-06-16T09:00:00+01:00", "2024-06-16T09:00:00+01:00", "", "", "Work"⟩
  ∧ "2024-06-16T09:00:00+01:00" ≠ "2024-06-16T09:30:00+01:00" := by
  refine ⟨by decide, by decide⟩

/-- C3 as amended: in calendar_processor.py an included component with no
end-date property and a DateTime start gets end equal to the start value
plus 30 wall-clock minutes normalized through the formatter, which for a
zone-aware start is exactly the start instant plus 30 minutes rendered in
the target zone; a DateOnly start copies the start string.  In
parse_calendar.py an absent end-date property always copies the start
string, with no 30-minute synthesis. -/
theorem c3_amended_default_duration :
    (∀ (sys tz : Zone) (today : Int) (calName : String) (x : PyDateTime)
        (su de lo : Option String) (ev : CanonicalEvent),
      processEvent sys tz (.good ⟨some (.dt x), none, su, de, lo⟩) today calName = some ev →
      ev.endIso = formatDatetime sys tz (.dt (addMinutes 30 x)))
  ∧ (∀ (sys tz : Zone) (today : Int) (calName : String) (w off : Int)
        (su de lo : Option String) (ev : CanonicalEvent),
      processEvent sys tz (.good ⟨some (.dt (.aware w off)), none, su, de, lo⟩)
          today calName = some ev →
      ev.endIso = isoOfWallOff (w - off + 30 + tz.offAtUtc (w - off + 30))
        (tz.offAtUtc (w - off + 30)))
  ∧ (∀ (sys tz : Zone) (today : Int) (calName : String) (day : Int)
        (su de lo : Option String) (ev : CanonicalEvent),
      processEvent sys tz (.good ⟨some (.dateOnly day), none, su, de, lo⟩)
          today calName = some ev →
      ev.endIso = ev.startIso)
  ∧ (∀ (sys tz : Zone) (today : Int) (calName : String) (r : EventRec)
        (ev : CanonicalEvent),
      r.dtend = none →
      pcProcessEvent sys tz today calName r = some ev →
      ev.endIso = ev.startIso) := by
  refine ⟨?_, ?_, ?_, ?_⟩
  · intro sys tz today calName x su de lo ev hev
    by_cases h : getEventDate sys tz (.dt x) = today
    · simp [processEvent, h] at hev
      rw [← hev]
    · simp [processEvent, h] at hev
  · intro sys tz today calName w off su de lo ev hev
    by_cases h : getEventDate sys tz (.dt (.aware w off)) = today
    · simp [processEvent, h] at hev
      rw [← hev]
      show formatDatetime sys tz (.dt (.aware (w + 30) off)) = _
      have harith : w + 30 - off = w - off + 30 := by ring
      simp [formatDatetime, astimezone, harith]
    · simp [processEvent, h] at hev
  · intro sys tz today calName day su de lo ev hev
    by_cases h : getEventDate sys tz (.dateOnly day) = today
    · simp [processEvent, h] at hev
      rw [← hev]
    · simp [processEvent, h] at hev
  · intro sys tz today calName r ev hde hev
    cases hds : r.dtstart with
    | none => simp [pcProcessEvent, hds] at hev
    | some ds =>
      simp [pcProcessEvent, hds, hde] at hev
      rw [← hev.2]

/-- Concrete instantiation of the amended C3 statement: an aware start at
2024-06-16T10:00:00+01:00 with no end gets end 2024-06-16T10:30:00+01:00 in
calendar_processor.py, a date-only start copies its string, and
parse_calendar.py copies the start string. -/
theorem c3_amended_default_duration_witness :
    ((⟨"Untitled Event", "2024-06-16T10:00:00+01:00", "2024-06-16T10:30:00+01:00",
        "", "", "A"⟩ : CanonicalEvent).endIso
      = formatDatetime utcZone london2024
          (.dt (addMinutes 30 (.aware (minutesOfYmdhm 2024 6 16 10 0) 60))))
  ∧ ((⟨"Untitled Event", "2024-06-16T10:00:00+01:00", "2024-06-16T10:30:00+01:00",
        "", "", "A"⟩ : CanonicalEvent).endIso
      = isoOfWallOff (minutesOfYmdhm 2024 6 16 10 0 - 60 + 30
            + london2024.offAtUtc (minutesOfYmdhm 2024 6 16 10 0 - 60 + 30))
          (london2024.offAtUtc (minutesOfYmdhm 2024 6 16 10 0 - 60 + 30)))
  ∧ ((⟨"Untitled Event", "2024-06-16T00:00:00+01:00", "2024-06-16T00:00:00+01:00",
        "", "", "A"⟩ : CanonicalEvent).endIso
      = (⟨"Untitled Event", "2024-06-16T00:00:00+01:00", "2024-06-16T00:00:00+01:00",
        "", "", "A"⟩ : CanonicalEvent).startIso)
  ∧ ((⟨"Standup", "2024-06-16T09:00:00+01:00", "2024-06-16T09:00:00+01:00",
        "", "", "Work"⟩ : CanonicalEvent).endIso
      = (⟨"Standup", "2024-06-16T09:00:00+01:00", "2024-06-16T09:00:00+01:00",
        "", "", "Work"⟩ : CanonicalEvent).startIso) :=
  ⟨c3_amended_default_duration.1 utcZone london2024 (daysFromCivil 2024 6 16) "A"
      (.aware (minutesOfYmdhm 2024 6 16 10 0) 60) none none none _ (by decide),
   c3_amended_default_duration.2.1 utcZone london2024 (daysFromCivil 2024 6 16) "A"
      (minutesOfYmdhm 2024 6 16 10 0) 60 none none none _ (by decide),
   c3_amended_default_duration.2.2.1 utcZone london2024 (daysFromCivil 2024 6 16) "A"
      (daysFromCivil 2024 6 16) none none none _ (by decide),
   c3_amended_default_duration.2.2.2 utcZone london2024 (daysFromCivil 2024 6 16) "Work"
      ⟨some (.dt (.aware (minutesOfYmdhm 2024 6 16 9 0) 60)), none, some "Standup", none, none⟩
      _ rfl (by decide)⟩

/-- C4 counterexample: parse_calendar.py emits a DateOnly start as the bare
calendar date, with no time-of-day and no UTC offset, while the claim
requires midnight in the target zone carrying the offset of that date. -/
theorem c4_counterexample_bare_date_emitted :
    pcProcessEvent utcZone london2024 (daysFromCivil 2024 6 16) "Home"
        ⟨some (.dateOnly (daysFromCivil 2024 6 16)), none, some "AllDay", none, none⟩
      = some ⟨"AllDay", "2024-06-16", "2024-06-16", "", "", "Home"⟩
  ∧ formatDatetime utcZone london2024 (.dateOnly (daysFromCivil 2024 6 16))
      = "2024-06-16T00:00:00+01:00"
  ∧ "2024-06-16" ≠ "2024-06-16T00:00:00+01:00" := by
  refine ⟨by decide, by decide, by decide⟩

/-- C4 as amended: in calendar_processor.py every emitted string carries a
numeric UTC offset — a DateOnly value becomes midnight of its date with the
target zone offset resolved at that local midnight, and a datetime is
rendered with the target zone offset resolved at its instant; but
parse_calendar.py emits DateOnly values as bare YYYY-MM-DD strings with no
offset. -/
theorem c4_amended_offset_bearing_output :
    (∀ (sys tz : Zone) (d : Int),
      formatDatetime sys tz (.dateOnly d)
        = isoOfDate d ++ "T" ++ "00" ++ ":" ++ "00" ++ ":00"
            ++ offsetStr (tz.offAtLocal (1440 * d)))
  ∧ (∀ (sys tz : Zone) (x : PyDateTime),
      ∃ i, formatDatetime sys tz (.dt x)
        = isoOfWallOff (i + tz.offAtUtc i) (tz.offAtUtc i))
  ∧ (∀ (sys tz : Zone) (d : Int), pcIso sys tz (.dateOnly d) = isoOfDate d) := by
  refine ⟨?_, ?_, ?_⟩
  · intro sys tz d
    show isoOfWallOff (1440 * d) (tz.offAtLocal (1440 * d)) = _
    unfold isoOfWallOff
    have h1 : (1440 * d) % 1440 = 0 := Int.mul_emod_right _ _
    have h2 : (1440 * d) / 1440 = d := Int.mul_ediv_cancel_left _ (by norm_num)
    rw [h1, h2]
    rfl
  · intro sys tz x
    cases x with
    | aware w off => exact ⟨w - off, rfl⟩
    | naive w => exact ⟨w - sys.offAtLocal w, rfl⟩
  · intro sys tz d
    rfl

/-- C5: a fetch failure or a parse failure on one feed contributes the
empty sequence, is logged, and removes nothing from the other feeds — the
merged accumulator over a feed list containing the failing feed equals the
accumulator over the list without it; and a malformed component is dropped
while the remaining components of the same feed are processed
unchanged. -/
theorem c5_per_feed_and_per_event_isolation :
    (∀ (parse : ParseFn) (sys tz : Zone) (today : Int)
        (fetch : String → Option String) (pre post : List FeedDescriptor)
        (cal : FeedDescriptor),
      (fetch cal.url = none ∨
        ∃ d, fetch cal.url = some d ∧ d ≠ "" ∧ ∃ e, parse d = .error e) →
      feedErrorLogged parse fetch cal = true
      ∧ allEvents parse sys tz today fetch (pre ++ cal :: post)
          = allEvents parse sys tz today fetch (pre ++ post))
  ∧ (∀ (sys tz : Zone) (today : Int) (calName : String)
        (pre post : List NamedComponent),
      componentEvents sys tz today calName (pre ++ ⟨"VEVENT", .malformed⟩ :: post)
        = componentEvents sys tz today calName (pre ++ post)) := by
  constructor
  · intro parse sys tz today fetch pre post cal hfail
    have hempty : feedEvents parse sys tz today fetch cal = []
        ∧ feedErrorLogged parse fetch cal = true := by
      rcases hfail with h | ⟨d, hd, hne, e, he⟩
      · constructor
        · unfold feedEvents; rw [h]
        · unfold feedErrorLogged; rw [h]
      · constructor
        · simp [feedEvents, hd, hne, parseCalendarEvents, he]
        · simp [feedErrorLogged, hd, hne, he]
    refine ⟨hempty.2, ?_⟩
    rw [allEvents_append, allEvents_append]
    have hcons : allEvents parse sys tz today fetch (cal :: post)
        = allEvents parse sys tz today fetch post := by
      show feedEvents parse sys tz today fetch cal
          ++ allEvents parse sys tz today fetch post = _
      rw [hempty.1]
      rfl
    rw [hcons]
  · intro sys tz today calName pre post
    unfold componentEvents
    rw [List.filter_append, List.filter_append, List.filterMap_append, List.filterMap_append]
    simp [processEvent, List.filter]

/-- Concrete instantiation of C5: a feed whose fetch fails is logged and
contributes nothing next to a healthy empty configuration. -/
theorem c5_per_feed_and_per_event_isolation_witness :
    feedErrorLogged (fun _ => .ok []) (fun _ => none) ⟨"A", "u"⟩ = true
    ∧ allEvents (fun _ => .ok []) utcZone london2024 0 (fun _ => none)
        ([] ++ ⟨"A", "u"⟩ :: [])
      = allEvents (fun _ => .ok []) utcZone london2024 0 (fun _ => none) ([] ++ []) :=
  c5_per_feed_and_per_event_isolation.1 (fun _ => .ok []) utcZone london2024 0
    (fun _ => none) [] [] ⟨"A", "u"⟩ (Or.inl rfl)

/-- Feed configuration of the merge example: feed A then feed B. -/
def exampleCfg : List FeedDescriptor := [⟨"A", "urlA"⟩, ⟨"B", "urlB"⟩]

/-- Fetch behavior of the merge example: both URLs resolve. -/
def exampleFetch : String → Option String := fun u =>
  if u = "urlA" then some "icalA" else if u = "urlB" then some "icalB" else none

/-- Parser behavior of the merge example: feed A holds events at 10:00 and
14:00 local, feed B one event at 12:00 local, all on 2024-06-16 with
explicit +01:00 offsets. -/
def exampleParse : ParseFn := fun s =>
  if s = "icalA" then
    .ok [⟨"VEVENT", .good ⟨some (.dt (.aware (minutesOfYmdhm 2024 6 16 10 0) 60)),
            some (.dt (.aware (minutesOfYmdhm 2024 6 16 11 0) 60)), some "a-ten", none, none⟩⟩,
         ⟨"VEVENT", .good ⟨some (.dt (.aware (minutesOfYmdhm 2024 6 16 14 0) 60)),
            some (.dt (.aware (minutesOfYmdhm 2024 6 16 15 0) 60)), some "a-two", none, none⟩⟩]
  else if s = "icalB" then
    .ok [⟨"VEVENT", .good ⟨some (.dt (.aware (minutesOfYmdhm 2024 6 16 12 0) 60)),
            some (.dt (.aware (minutesOfYmdhm 2024 6 16 13 0) 60)), some "b-noon", none, none⟩⟩]
  else .error ()

/-- C6: the output batch is the per-feed results concatenated in
feed-configuration order and stable-sorted ascending by the lexical order
of the start ISO string: the result is sorted, and for every fixed start
string the subsequence of events carrying it — hence each event record,
including its calendarSource — is exactly the one of the concatenation, in
encounter order; the batch is a permutation of the concatenation; and on
the example feeds A (10:00, 14:00) and B (12:00) the order is 10:00 from A,
12:00 from B, 14:00 from A. -/
theorem c6_merge_is_stable_sort_by_start :
    (∀ (parse : ParseFn) (sys tz : Zone) (today : Int)
        (fetch : String → Option String) (cfg : List FeedDescriptor),
      sortedEvents parse sys tz today fetch cfg
          = pySortByStart (allEvents parse sys tz today fetch cfg)
      ∧ List.Sorted startLe (sortedEvents parse sys tz today fetch cfg)
      ∧ (∀ s, (sortedEvents parse sys tz today fetch cfg).filter
              (fun e => startKey e == s)
            = (allEvents parse sys tz today fetch cfg).filter
              (fun e => startKey e == s))
      ∧ (sortedEvents parse sys tz today fetch cfg).Perm
          (allEvents parse sys tz today fetch cfg))
  ∧ sortedEvents exampleParse utcZone london2024 (daysFromCivil 2024 6 16)
      exampleFetch exampleCfg
      = [⟨"a-ten", "2024-06-16T10:00:00+01:00", "2024-06-16T11:00:00+01:00", "", "", "A"⟩,
         ⟨"b-noon", "2024-06-16T12:00:00+01:00", "2024-06-16T13:00:00+01:00", "", "", "B"⟩,
         ⟨"a-two", "2024-06-16T14:00:00+01:00", "2024-06-16T15:00:00+01:00", "", "", "A"⟩] := by
  constructor
  · intro parse sys tz today fetch cfg
    exact ⟨rfl, pySortByStart_sorted _, fun s => pySortByStart_filter _ s,
      pySortByStart_perm _⟩
  · decide

/-- C7 counterexample: the write is not atomic.  Opening with mode w
truncates the file before `json.dump` streams into it, so an error after
one character leaves the file holding a strict prefix of the new content —
neither the previous output nor the complete new output. -/
theorem c7_counterexample_truncated_write :
    persistPass (some "[]") "[\n]" (.failDuring 1) = some "["
  ∧ some "[" ≠ some ("[]" : String)
  ∧ some "[" ≠ some ("[\n]" : String)
  ∧ persistLogsError (.failDuring 1) = true := by
  refine ⟨by decide, by decide, by decide, by decide⟩

/-- C7 as amended: a persistence failure is logged and the process does not
crash; a failure at open time leaves the previous output file unchanged,
but the replacement is not atomic — a failure while writing leaves the
file holding the first k characters of the new content; only a fully
successful pass leaves the complete new content. -/
theorem c7_amended_persistence (prev : Option String) (content : String)
    (o : WriteOutcome) :
    (o ≠ .ok → persistLogsError o = true)
  ∧ (o = .failOpen → persistPass prev content o = prev)
  ∧ (∀ k, o = .failDuring k → persistPass prev content o = some (content.take k))
  ∧ (o = .ok → persistPass prev content o = some content) := by
  refine ⟨?_, ?_, ?_, ?_⟩
  · intro h
    cases o with
    | ok => exact absurd rfl h
    | failOpen => rfl
    | failDuring k => rfl
  · intro h; rw [h]; rfl
  · intro k h; rw [h]; rfl
  · intro h; rw [h]; rfl

/-- Concrete instantiation of the amended C7 statement. -/
theorem c7_amended_persistence_witness :
    persistLogsError .failOpen = true
  ∧ persistPass (some "[old]") "[new]" .failOpen = some "[old]"
  ∧ persistPass (some "[old]") "[new]" (.failDuring 2) = some ("[new]".take 2)
  ∧ persistPass (some "[old]") "[new]" .ok = some "[new]" :=
  ⟨(c7_amended_persistence (some "[old]") "[new]" .failOpen).1 (by decide),
   (c7_amended_persistence (some "[old]") "[new]" .failOpen).2.1 rfl,
   (c7_amended_persistence (some "[old]") "[new]" (.failDuring 2)).2.2.1 2 rfl,
   (c7_amended_persistence (some "[old]") "[new]" .ok).2.2.2 rfl⟩

/-- C8 counterexample: a name that is whitespace only is stored as the
empty string (the url is checked non-empty after stripping, the name never
is), and an empty url entry is skipped, so with three configured names of
three url entries only one descriptor is produced. -/
theorem c8_counterexample_config :
    loadCalendarConfig "http://a" " " = [⟨"", "http://a"⟩]
  ∧ loadCalendarConfig "a,," "x,y,z" = [⟨"x", "a"⟩]
  ∧ (pySplitComma "x,y,z").length = 3
  ∧ (loadCalendarConfig "a,," "x,y,z").length ≠ (pySplitComma "x,y,z").length := by
  refine ⟨by decide, by decide, by decide, by decide⟩

theorem splitCommaAux_ne_nil : ∀ (l acc : List Char), splitCommaAux l acc ≠ []
  | [], acc => by simp [splitCommaAux]
  | c :: cs, acc => by
    by_cases h : c = ','
    · simp [splitCommaAux, h]
    · simp only [splitCommaAux, if_neg h]
      exact splitCommaAux_ne_nil cs (c :: acc)

theorem pySplitComma_ne_nil (s : String) : pySplitComma s ≠ [] :=
  splitCommaAux_ne_nil s.data []

theorem enumFrom_filterMap_length (f : Nat × String → FeedDescriptor) :
    ∀ (l : List String) (k n : Nat), k + l.length ≤ n →
    ((List.enumFrom k l).filterMap (fun p =>
        if pyStrip p.2 ≠ "" ∧ p.1 < n then some (f p) else none)).length
      = (l.filter (fun u => pyStrip u ≠ "")).length := by
  intro l
  induction l with
  | nil => intro k n h; rfl
  | cons x xs ih =>
    intro k n h
    rw [List.enumFrom_cons]
    have hk : k < n := by
      simp only [List.length_cons] at h
      omega
    have hrest : k + 1 + xs.length ≤ n := by
      simp only [List.length_cons] at h
      omega
    by_cases hx : pyStrip x ≠ ""
    · rw [List.filterMap_cons, List.filter_cons]
      rw [if_pos (show pyStrip x ≠ "" ∧ k < n from ⟨hx, hk⟩)]
      simp [hx, ih (k + 1) n hrest]
    · rw [List.filterMap_cons, List.filter_cons]
      rw [if_neg (fun hc => hx hc.1)]
      have hx2 : pyStrip x = "" := not_not.mp hx
      simp [hx2, ih (k + 1) n hrest]

/-- C8 as amended: mismatched list lengths yield zero feeds with a logged
configuration error; every produced descriptor pairs, by position, a
stripped url entry that is non-empty after stripping with the stripped name
at the same index — the name itself may be empty after stripping; and when
the lengths match, the number of descriptors equals the number of url
entries that are non-empty after stripping, which can be smaller than the
number of configured names. -/
theorem c8_amended_config :
    (∀ urls names : String,
      (pySplitComma urls).length ≠ (pySplitComma names).length →
      loadCalendarConfig urls names = [] ∧ loadConfigLogsError urls names = true)
  ∧ (∀ urls names : String, ∀ dd ∈ loadCalendarConfig urls names,
      ∃ p ∈ (pySplitComma urls).enum,
        pyStrip p.2 ≠ "" ∧ dd.url = pyStrip p.2
        ∧ dd.name = pyStrip ((pySplitComma names).getD p.1 ""))
  ∧ (∀ urls names : String,
      (pySplitComma urls).length = (pySplitComma names).length →
      (loadCalendarConfig urls names).length
        = ((pySplitComma urls).filter (fun u => pyStrip u ≠ "")).length) := by
  refine ⟨?_, ?_, ?_⟩
  · intro urls names hne
    constructor
    · unfold loadCalendarConfig
      rw [if_neg (not_or.mpr ⟨pySplitComma_ne_nil urls, pySplitComma_ne_nil names⟩)]
      rw [if_pos hne]
    · unfold loadConfigLogsError
      simp [hne]
  · intro urls names dd hdd
    unfold loadCalendarConfig at hdd
    by_cases h0 : pySplitComma urls = [] ∨ pySplitComma names = []
    · rw [if_pos h0] at hdd
      exact absurd hdd (List.not_mem_nil dd)
    · rw [if_neg h0] at hdd
      by_cases h1 : (pySplitComma urls).length ≠ (pySplitComma names).length
      · rw [if_pos h1] at hdd
        exact absurd hdd (List.not_mem_nil dd)
      · rw [if_neg h1] at hdd
        obtain ⟨p, hp, hf⟩ := List.mem_filterMap.mp hdd
        refine ⟨p, hp, ?_⟩
        by_cases hc : pyStrip p.2 ≠ "" ∧ p.1 < (pySplitComma names).length
        · rw [if_pos hc] at hf
          cases hf
          exact ⟨hc.1, rfl, rfl⟩
        · rw [if_neg hc] at hf
          cases hf
  · intro urls names heq
    unfold loadCalendarConfig
    rw [if_neg (not_or.mpr ⟨pySplitComma_ne_nil urls, pySplitComma_ne_nil names⟩)]
    rw [if_neg (by omega)]
    exact enumFrom_filterMap_length
      (fun p => ⟨pyStrip ((pySplitComma names).getD p.1 ""), pyStrip p.2⟩)
      (pySplitComma urls) 0 (pySplitComma names).length (by omega)

/-- Concrete instantiation of the amended C8 statement. -/
theorem c8_amended_config_witness :
    (loadCalendarConfig "a,b" "x" = [] ∧ loadConfigLogsError "a,b" "x" = true)
  ∧ (∃ p ∈ (pySplitComma "http://a").enum,
      pyStrip p.2 ≠ "" ∧ (⟨"", "http://a"⟩ : FeedDescriptor).url = pyStrip p.2
      ∧ (⟨"", "http://a"⟩ : FeedDescriptor).name
          = pyStrip ((pySplitComma " ").getD p.1 ""))
  ∧ (loadCalendarConfig "a,," "x,y,z").length
      = ((pySplitComma "a,,").filter (fun u => pyStrip u ≠ "")).length :=
  ⟨c8_amended_config.1 "a,b" "x" (by decide),
   c8_amended_config.2.1 "http://a" " " ⟨"", "http://a"⟩ (by decide),
   c8_amended_config.2.2 "a,," "x,y,z" (by decide)⟩

/-- C9: one pass is a deterministic function of the configuration, the
fetched bytes of the configured feeds, and the target-date input: two
fetch functions agreeing on every configured URL yield byte-identical
serialized output (so two consecutive passes over unchanged feed content
write identical JSON). -/
theorem c9_pass_deterministic :
    ∀ (parse : ParseFn) (sys tz : Zone) (today : Int)
      (fetch1 fetch2 : String → Option String) (cfg : List FeedDescriptor),
      (∀ cal ∈ cfg, fetch1 cal.url = fetch2 cal.url) →
      outputJson parse sys tz today fetch1 cfg = outputJson parse sys tz today fetch2 cfg := by
  intro parse sys tz today fetch1 fetch2 cfg hagree
  have hall : allEvents parse sys tz today fetch1 cfg
      = allEvents parse sys tz today fetch2 cfg := by
    induction cfg with
    | nil => rfl
    | cons cal rest ih =>
      show feedEvents parse sys tz today fetch1 cal ++ _
          = feedEvents parse sys tz today fetch2 cal ++ _
      rw [feedEvents_congr parse sys tz today fetch1 fetch2 cal
        (hagree cal (List.mem_cons_self cal rest))]
      rw [ih (fun c hc => hagree c (List.mem_cons_of_mem cal hc))]
  unfold outputJson sortedEvents
  rw [hall]

/-- Concrete instantiation of C9: two fetch functions that differ away
from the configured URL produce identical output. -/
theorem c9_pass_deterministic_witness :
    outputJson (fun _ => .ok []) utcZone london2024 0
        (fun u => if u = "u1" then some "D" else none) [⟨"A", "u1"⟩]
      = outputJson (fun _ => .ok []) utcZone london2024 0
        (fun u => if u = "u1" then some "D" else some "other") [⟨"A", "u1"⟩] :=
  c9_pass_deterministic (fun _ => .ok []) utcZone london2024 0
    (fun u => if u = "u1" then some "D" else none)
    (fun u => if u = "u1" then some "D" else some "other") [⟨"A", "u1"⟩]
    (by
      intro cal hc
      have hcal : cal = ⟨"A", "u1"⟩ := List.mem_singleton.mp hc
      rw [hcal]
      rfl)

/-- C10: a successful fetch that returns the empty byte string is skipped
by the falsiness check before parsing, exactly like a failed fetch: the
feed contributes no events, and the whole serialized output is the same as
if the fetch had returned the failure marker for that URL. -/
theorem c10_empty_fetch_like_failed_fetch :
    ∀ (parse : ParseFn) (sys tz : Zone) (today : Int)
      (fetch : String → Option String) (cfg : List FeedDescriptor) (u : String),
      fetch u = some "" →
      (∀ cal ∈ cfg, cal.url = u → feedEvents parse sys tz today fetch cal = [])
      ∧ outputJson parse sys tz today fetch cfg
          = outputJson parse sys tz today (fun v => if v = u then none else fetch v) cfg := by
  intro parse sys tz today fetch cfg u hu
  constructor
  · intro cal hc hurl
    unfold feedEvents
    rw [hurl, hu]
    simp
  · have hfeed : ∀ cal : FeedDescriptor,
        feedEvents parse sys tz today fetch cal
          = feedEvents parse sys tz today (fun v => if v = u then none else fetch v) cal := by
      intro cal
      by_cases hurl : cal.url = u
      · unfold feedEvents
        rw [hurl, hu]
        simp
      · simp only [feedEvents]
        rw [if_neg hurl]
    have hall : ∀ cs : List FeedDescriptor,
        allEvents parse sys tz today fetch cs
          = allEvents parse sys tz today (fun v => if v = u then none else fetch v) cs := by
      intro cs
      induction cs with
      | nil => rfl
      | cons cal rest ih =>
        show feedEvents parse sys tz today fetch cal ++ _ = _
        rw [hfeed cal, ih]
        rfl
    unfold outputJson sortedEvents
    rw [hall]

/-- Concrete instantiation of C10: an empty response contributes nothing
and matches the failed-fetch output. -/
theorem c10_empty_fetch_like_failed_fetch_witness :
    (∀ cal ∈ [(⟨"A", "u"⟩ : FeedDescriptor)], cal.url = "u" →
      feedEvents (fun _ => .ok []) utcZone london2024 0 (fun _ => some "") cal = [])
    ∧ outputJson (fun _ => .ok []) utcZone london2024 0 (fun _ => some "") [⟨"A", "u"⟩]
      = outputJson (fun _ => .ok []) utcZone london2024 0
          (fun v => if v = "u" then none else some "") [⟨"A", "u"⟩] :=
  c10_empty_fetch_like_failed_fetch (fun _ => .ok []) utcZone london2024 0
    (fun _ => some "") [⟨"A", "u"⟩] "u" rfl
